import Mathlib

/-!
Verification of `cdk-aws-ecs-dockerhub-cache` (src/src/stacks/my-stack.ts).

The repository declares a CDK stack: a Secrets Manager secret holding Docker
Hub credentials, a default-VPC lookup, an application load balancer with an
HTTP listener, an ECS task-execution IAM role, an ECR pull-through cache rule
and registry policy, a mirrored repository, an ECS cluster, a Fargate task
definition with one nginx container, a Fargate service, an ALB target group
and one security-group ingress rule.  The shallow embedding below renders the
stack constructor as a pure function from the validated configuration (plus
the region and account strings) to a list of resource declarations, in the
order the source declares them, together with the explicit dependency edges
added via `node.addDependency`.

The environment validator lives in `src/utils/validate-env.ts`, which is not
among the provided sources (only its call site on line 40 of my-stack.ts is);
it is modelled from the spec, as marked on each definition concerned.
-/

namespace DockerhubCache

/-! ### Environment and validator -/

/-- A process environment: an association list from variable names to values.
A name that is absent from the list is an unset variable. -/
abbrev Env := List (String × String)

/-- Reading a variable from the environment (first binding wins, as in
`process.env`). -/
def lookupEnv (env : Env) (key : String) : Option String :=
  (env.find? (fun p => p.fst == key)).map Prod.snd

/-- Modelled from the spec: `src/utils/validate-env.ts` is not in the sources.
The keys of the required list that are missing, i.e. absent from the
environment or bound to the empty string ("For any required key missing or
empty, the validator fails"). -/
def missingKeys (env : Env) (keys : List String) : List String :=
  keys.filter (fun k =>
    match lookupEnv env k with
    | none => true
    | some v => v == "")

/-- Joining the missing keys into one comma-separated enumeration for the
error message. -/
def joinKeys : List String → String
  | [] => ""
  | [k] => k
  | k :: rest => k ++ ", " ++ joinKeys rest

/-- Modelled from the spec: `src/utils/validate-env.ts` is not in the sources.
Given the fixed list of required key names, read each from the environment; if
every key is present with a non-empty value, return the mapping from key name
to value; otherwise fail with a configuration error that enumerates exactly
the missing keys (all of them, not just the first). -/
def validateEnv (keys : List String) (env : Env) : Except String Env :=
  match missingKeys env keys with
  | [] => Except.ok (keys.map (fun k => (k, (lookupEnv env k).getD "")))
  | missing =>
      Except.error ("Missing required environment variables: " ++ joinKeys missing)

/-- The fixed list of required keys, from line 40 of my-stack.ts. -/
def requiredEnvKeys : List String :=
  ["DOCKERHUB_USERNAME", "DOCKERHUB_ACCESS_TOKEN"]

/-- The validated configuration: the two credential values, typed so that
downstream code accesses them without further existence checks. -/
structure Config where
  DOCKERHUB_USERNAME : String
  DOCKERHUB_ACCESS_TOKEN : String
deriving DecidableEq, Repr

/-- Reading the typed configuration off the validated mapping. -/
def toConfig (m : Env) : Config where
  DOCKERHUB_USERNAME := (lookupEnv m "DOCKERHUB_USERNAME").getD ""
  DOCKERHUB_ACCESS_TOKEN := (lookupEnv m "DOCKERHUB_ACCESS_TOKEN").getD ""

/-! ### JSON serialization of the credential secret

`my-stack.ts` line 52 stores `JSON.stringify({ username, accessToken })` as
the secret's plain-text value; the escaping below is JSON.stringify's escaping
of string values. -/

/-- Lower-case hexadecimal digit. -/
def hexDigit (n : Nat) : Char :=
  if n < 10 then Char.ofNat (48 + n) else Char.ofNat (87 + n)

/-- JSON string escaping of one character, as performed by `JSON.stringify`. -/
def jsonEscapeChar (c : Char) : String :=
  if c = '"' then "\\\""
  else if c = '\\' then "\\\\"
  else if c = '\x08' then "\\b"
  else if c = '\x09' then "\\t"
  else if c = '\x0a' then "\\n"
  else if c = '\x0c' then "\\f"
  else if c = '\x0d' then "\\r"
  else if c.toNat < 32 then
    "\\u00" ++ String.mk [hexDigit (c.toNat / 16), hexDigit (c.toNat % 16)]
  else String.mk [c]

/-- JSON string escaping, character by character. -/
def jsonEscape (s : String) : String :=
  String.join (s.data.map jsonEscapeChar)

/-- `JSON.stringify({ username: u, accessToken: t })` from line 53 of
my-stack.ts: the plain-text JSON serialization of the two-field credential
object. -/
def dhSecretString (u t : String) : String :=
  "\x7b\"username\":\"" ++ jsonEscape u ++ "\",\"accessToken\":\"" ++
    jsonEscape t ++ "\"\x7d"

/-- Prefix required for ECR pull-through cache secrets (line 38 of
my-stack.ts, source name ECR_PULL_THROUGH_CACHE_PREFIX). -/
def ECR_PULL_THROUGH_CACHE_PREFIX_STR : String := "ecr-pullthroughcache/"

/-! ### The resource model -/

/-- A deploy-time reference to another construct's ARN attribute. -/
inductive ArnRef
  | secretArn (constructId : String)
  | roleArn (constructId : String)
deriving DecidableEq, Repr

/-- The source of a security-group ingress rule: another construct's security
identity, or the open internet. -/
inductive Peer
  | securityGroupOf (constructId : String)
  | anyIpv4
deriving DecidableEq, Repr

/-- One statement of an IAM policy document. -/
structure PolicyStatement where
  sid : String
  effect : String
  principalAws : ArnRef
  action : List String
  resource : String
deriving DecidableEq, Repr

/-- An IAM policy document. -/
structure PolicyDocument where
  version : String
  statement : List PolicyStatement
deriving DecidableEq, Repr

/-- Removal policies used by the stack. -/
inductive RemovalPolicy
  | destroy
  | retain
deriving DecidableEq, Repr

/-- ALB protocols (`ApplicationProtocol` in aws-elasticloadbalancingv2). -/
inductive AppProtocol
  | http
  | https
deriving DecidableEq, Repr

/-- Health-check protocols (`Protocol` in aws-elasticloadbalancingv2). -/
inductive ElbProtocol
  | http
  | https
deriving DecidableEq, Repr

/-- Container protocols (`Protocol` in aws-ecs, imported as EcsProtocol). -/
inductive EcsProtocol
  | tcp
  | udp
deriving DecidableEq, Repr

/-- A container port mapping. -/
structure PortMapping where
  containerPort : Nat
  hostPort : Nat
  protocol : EcsProtocol
  name : String
deriving DecidableEq, Repr

/-- A security-group ingress rule as declared by
`connections.allowFrom(source, Port.tcp(port), description)`. -/
structure SGRule where
  targetId : String
  source : Peer
  protocol : EcsProtocol
  port : Nat
  description : String
deriving DecidableEq, Repr

/-- One resource declaration of the stack, with the construct id that names it
and the properties the source sets.  The constructors appear in the order the
source file declares the resources. -/
inductive Resource
  | secret (id secretName secretStringValue : String) (removalPolicy : RemovalPolicy)
  | vpcLookup (id : String) (isDefault : Bool)
  | applicationLoadBalancer (id vpcId : String) (internetFacing : Bool)
  | albListener (id albId : String) (port : Nat) (protocol : AppProtocol)
  | iamRole (id assumedByService : String) (managedPolicyNames : List String)
  | pullThroughCacheRule (id ecrRepositoryPrefixAttr upstreamRegistry upstreamRegistryUrl : String)
      (credentialArn : ArnRef)
  | registryPolicy (id : String) (policyText : PolicyDocument)
  | repository (id repositoryName : String) (removalPolicy : RemovalPolicy) (emptyOnDelete : Bool)
  | cluster (id vpcId : String)
  | taskDefinition (id compatibility cpu memoryMiB : String) (executionRoleId : String)
  | containerDefinition (taskDefId name imageRepositoryId : String)
      (portMappings : List PortMapping) (healthCheckCommand : List String)
      (startPeriodSeconds : Nat) (streamPrefixVal : String) (logRetentionDays : Nat)
  | fargateService (id clusterId taskDefId : String) (desiredCount : Nat) (assignPublicIp : Bool)
  | targetGroup (id listenerId : String) (port : Nat) (protocol : AppProtocol)
      (targetServiceId targetContainerName : String) (targetContainerPort : Nat)
      (targetProtocol : EcsProtocol) (healthCheckPath healthCheckPort : String)
      (healthCheckProtocol : ElbProtocol) (healthyHttpCodes : String)
  | securityGroupRule (rule : SGRule)
deriving DecidableEq, Repr

/-- The kind of a declaration, for stating the declaration order. -/
inductive DeclKind
  | secret
  | vpcLookup
  | loadBalancer
  | listener
  | iamRole
  | cacheRule
  | registryPolicy
  | repository
  | cluster
  | taskDefinition
  | containerDefinition
  | service
  | targetGroup
  | securityRule
deriving DecidableEq, BEq, Repr

/-- Kind of each resource declaration. -/
def Resource.kind : Resource → DeclKind
  | .secret .. => .secret
  | .vpcLookup .. => .vpcLookup
  | .applicationLoadBalancer .. => .loadBalancer
  | .albListener .. => .listener
  | .iamRole .. => .iamRole
  | .pullThroughCacheRule .. => .cacheRule
  | .registryPolicy .. => .registryPolicy
  | .repository .. => .repository
  | .cluster .. => .cluster
  | .taskDefinition .. => .taskDefinition
  | .containerDefinition .. => .containerDefinition
  | .fargateService .. => .service
  | .targetGroup .. => .targetGroup
  | .securityGroupRule .. => .securityRule

/-- The assembled stack: the resource declarations in source order, and the
explicit dependency edges added with `node.addDependency` (from construct id,
to construct id). -/
structure StackModel where
  resources : List Resource
  dependencies : List (String × String)
deriving DecidableEq, Repr

/-- The ARN pattern `arn:aws:ecr:REGION:ACCOUNT:repository/NS/*` interpolated
on line 118 of my-stack.ts. -/
def ecrRepositoryArn (region account ns : String) : String :=
  "arn:aws:ecr:" ++ region ++ ":" ++ account ++ ":repository/" ++ ns ++ "/*"

/-- The stack constructor `MyStack` (lines 42-207 of my-stack.ts), as the list
of resource declarations it performs, in source order, with the explicit
dependency edge of line 176.  `region` and `account` stand for the stack's
deploy-time region and account strings used by the policy ARN. -/
def buildMyStack (env : Config) (region account : String) : StackModel :=
  let ecrRepositoryPrefixAttr := "dockerhub"
  { resources :=
      [ Resource.secret "DhCacheRuleSecret"
          (ECR_PULL_THROUGH_CACHE_PREFIX_STR ++ "dockerhub")
          (dhSecretString env.DOCKERHUB_USERNAME env.DOCKERHUB_ACCESS_TOKEN)
          RemovalPolicy.destroy,
        Resource.vpcLookup "DefaultVpc" true,
        Resource.applicationLoadBalancer "NginxAlb" "DefaultVpc" true,
        Resource.albListener "NginxAlbHttpListener" "NginxAlb" 80 AppProtocol.http,
        Resource.iamRole "EcsTaskExecutionRole" "ecs-tasks.amazonaws.com"
          ["service-role/AmazonECSTaskExecutionRolePolicy"],
        Resource.pullThroughCacheRule "DhCacheRule" ecrRepositoryPrefixAttr
          "docker-hub" "registry-1.docker.io" (ArnRef.secretArn "DhCacheRuleSecret"),
        Resource.registryPolicy "DhCacheRegistryPolicy"
          { version := "2012-10-17",
            statement :=
              [ { sid := "AllowDockerhubCache",
                  effect := "Allow",
                  principalAws := ArnRef.roleArn "EcsTaskExecutionRole",
                  action := ["ecr:CreateRepository", "ecr:BatchImportUpstreamImage"],
                  resource := ecrRepositoryArn region account ecrRepositoryPrefixAttr } ] },
        Resource.repository "EcrNginxRepo" (ecrRepositoryPrefixAttr ++ "/library/nginx")
          RemovalPolicy.destroy true,
        Resource.cluster "EcsCluster" "DefaultVpc",
        Resource.taskDefinition "EcsTaskDefinition" "FARGATE" "512" "1024"
          "EcsTaskExecutionRole",
        Resource.containerDefinition "EcsTaskDefinition" "nginx" "EcrNginxRepo"
          [{ containerPort := 80, hostPort := 80, protocol := EcsProtocol.tcp, name := "http" }]
          ["CMD-SHELL", "curl -f http://localhost/ || exit 1"] 10 "/ecs/nginx" 7,
        Resource.fargateService "NginxService" "EcsCluster" "EcsTaskDefinition" 2 true,
        Resource.targetGroup "HttpTarget" "NginxAlbHttpListener" 80 AppProtocol.http
          "NginxService" "nginx" 80 EcsProtocol.tcp "/" "80" ElbProtocol.http "200",
        Resource.securityGroupRule
          { targetId := "NginxService",
            source := Peer.securityGroupOf "NginxAlb",
            protocol := EcsProtocol.tcp,
            port := 80,
            description := "Allow ALB to access Nginx HTTP endpoint" } ],
    dependencies := [("NginxService", "DhCacheRegistryPolicy")] }

/-- The whole program: line 40 of my-stack.ts validates the environment at
module load, before the stack class is instantiated; a validation failure
aborts with the validator's error and no resource is ever declared. -/
def assembleApp (env : Env) (region account : String) : Except String StackModel :=
  (validateEnv requiredEnvKeys env).map
    (fun m => buildMyStack (toConfig m) region account)

/-! ### Accessors over the assembled stack -/

/-- The declared secrets: (construct id, secretName, secretStringValue). -/
def StackModel.secrets (s : StackModel) : List (String × String × String) :=
  s.resources.filterMap (fun r =>
    match r with
    | .secret id name value _ => some (id, name, value)
    | _ => none)

/-- The declared pull-through cache rules:
(construct id, ecrRepositoryPrefix attribute, credentialArn). -/
def StackModel.cacheRules (s : StackModel) : List (String × String × ArnRef) :=
  s.resources.filterMap (fun r =>
    match r with
    | .pullThroughCacheRule id ns _ _ cred => some (id, ns, cred)
    | _ => none)

/-- The declared registry policies: (construct id, policy document). -/
def StackModel.registryPolicies (s : StackModel) : List (String × PolicyDocument) :=
  s.resources.filterMap (fun r =>
    match r with
    | .registryPolicy id doc => some (id, doc)
    | _ => none)

/-- The declared repositories: (construct id, repositoryName). -/
def StackModel.repositories (s : StackModel) : List (String × String) :=
  s.resources.filterMap (fun r =>
    match r with
    | .repository id name _ _ => some (id, name)
    | _ => none)

/-- The declared task definitions: (construct id, execution role construct id). -/
def StackModel.taskDefinitions (s : StackModel) : List (String × String) :=
  s.resources.filterMap (fun r =>
    match r with
    | .taskDefinition id _ _ _ roleId => some (id, roleId)
    | _ => none)

/-- The declared Fargate services and the construct ids their data references
point at: (construct id, [cluster id, task definition id]). -/
def StackModel.serviceRefs (s : StackModel) : List (String × List String) :=
  s.resources.filterMap (fun r =>
    match r with
    | .fargateService id clusterId taskDefId _ _ => some (id, [clusterId, taskDefId])
    | _ => none)

/-- The declared security-group ingress rules. -/
def StackModel.securityRules (s : StackModel) : List SGRule :=
  s.resources.filterMap (fun r =>
    match r with
    | .securityGroupRule rule => some rule
    | _ => none)

/-- The resource-kind sequence of the claimed fixed declaration order:
secret, network lookup, load balancer, IAM role, cache rule, registry policy,
repository, cluster, task definition, service, target group, security rule. -/
def mainKinds : List DeclKind :=
  [DeclKind.secret, DeclKind.vpcLookup, DeclKind.loadBalancer, DeclKind.iamRole,
   DeclKind.cacheRule, DeclKind.registryPolicy, DeclKind.repository, DeclKind.cluster,
   DeclKind.taskDefinition, DeclKind.service, DeclKind.targetGroup, DeclKind.securityRule]

/-! ### Helper lemmas -/

/-- Unfolding `String.append` to list append on the character data. -/
theorem data_append (s t : String) : (s ++ t).data = s.data ++ t.data := by
  cases s; cases t; rfl

/-- Every key of a list occurs (as a substring, stated on the character data)
in the joined enumeration of the list. -/
theorem mem_joinKeys_occurs {k : String} {l : List String} (h : k ∈ l) :
    k.data <:+: (joinKeys l).data := by
  induction l with
  | nil => cases h
  | cons m t ih =>
    cases t with
    | nil =>
      rcases List.mem_singleton.mp h with rfl
      exact List.infix_refl _
    | cons m2 t2 =>
      rcases List.mem_cons.mp h with rfl | h2
      · show k.data <:+: ((k ++ ", ") ++ joinKeys (m2 :: t2)).data
        rw [data_append, data_append]
        exact ((List.prefix_append k.data _).trans
          (List.prefix_append (k.data ++ ", ".data) _)).isInfix
      · show k.data <:+: ((m ++ ", ") ++ joinKeys (m2 :: t2)).data
        rw [data_append]
        exact (ih h2).trans (List.suffix_append _ _).isInfix

/-! ### Claims -/

/-- C1: for every valid configuration, assembling the stack adds an explicit
dependency edge from the Fargate service declaration to the ECR registry
policy declaration, although the service's own data references point only at
the cluster and the task definition, never at the policy. -/
theorem service_dependsOn_registryPolicy (env : Config) (region account : String) :
    ("NginxService", "DhCacheRegistryPolicy") ∈ (buildMyStack env region account).dependencies ∧
    (buildMyStack env region account).serviceRefs =
      [("NginxService", ["EcsCluster", "EcsTaskDefinition"])] ∧
    "DhCacheRegistryPolicy" ∉ ["EcsCluster", "EcsTaskDefinition"] :=
  ⟨List.mem_singleton.mpr rfl, rfl, by decide⟩

/-- C2: if any required key is missing or empty in the environment, the
validator fails with a configuration error whose message names every missing
key (as a substring of the message), not only the first one encountered. -/
theorem validateEnv_error_names_all_missing (keys : List String) (env : Env)
    (k : String) (hk : k ∈ keys)
    (hmiss : lookupEnv env k = none ∨ lookupEnv env k = some "") :
    ∃ msg, validateEnv keys env = Except.error msg ∧
      ∀ k2 ∈ missingKeys env keys, k2.data <:+: msg.data := by
  have hkm : k ∈ missingKeys env keys := by
    apply List.mem_filter.mpr
    refine ⟨hk, ?_⟩
    rcases hmiss with h | h <;> simp [h]
  rcases hml : missingKeys env keys with _ | ⟨m, ms⟩
  · rw [hml] at hkm
    cases hkm
  · refine ⟨"Missing required environment variables: " ++ joinKeys (m :: ms), ?_, ?_⟩
    · unfold validateEnv
      rw [hml]
    · intro k2 hk2
      rw [data_append]
      exact (mem_joinKeys_occurs hk2).trans (List.suffix_append _ _).isInfix

/-- Witness for C2: with an empty environment and required keys A and B, the
validator fails and the message names every missing key. -/
theorem validateEnv_error_names_all_missing_w :
    ∃ msg, validateEnv ["A", "B"] [] = Except.error msg ∧
      ∀ k2 ∈ missingKeys [] ["A", "B"], k2.data <:+: msg.data :=
  validateEnv_error_names_all_missing ["A", "B"] [] "A" (by decide) (Or.inl rfl)

/-- C3: when every required key is present with a non-empty value, the
validator returns the mapping of exactly those keys, in order, to their
original unmodified values. -/
theorem validateEnv_ok_exact_mapping (keys : List String) (env : Env)
    (h : ∀ k ∈ keys, ∃ v, lookupEnv env k = some v ∧ v ≠ "") :
    ∃ m, validateEnv keys env = Except.ok m ∧
      m.map Prod.fst = keys ∧
      ∀ p ∈ m, lookupEnv env p.fst = some p.snd := by
  have hm : missingKeys env keys = [] := by
    apply List.filter_eq_nil_iff.mpr
    intro a ha
    rcases h a ha with ⟨v, hv1, hv2⟩
    simp [hv1, hv2]
  refine ⟨keys.map (fun k => (k, (lookupEnv env k).getD "")), ?_, ?_, ?_⟩
  · unfold validateEnv
    rw [hm]
  · rw [List.map_map]
    exact List.map_id keys
  · intro p hp
    rcases List.mem_map.mp hp with ⟨k2, hk2, rfl⟩
    rcases h k2 hk2 with ⟨v, hv1, hv2⟩
    simp [hv1]

/-- Witness for C3: one key present and non-empty. -/
theorem validateEnv_ok_exact_mapping_w :
    ∃ m, validateEnv ["A"] [("A", "x")] = Except.ok m ∧
      m.map Prod.fst = ["A"] ∧
      ∀ p ∈ m, lookupEnv [("A", "x")] p.fst = some p.snd :=
  validateEnv_ok_exact_mapping ["A"] [("A", "x")] (by
    intro k hk
    rcases List.mem_singleton.mp hk with rfl
    exact ⟨"x", rfl, by decide⟩)

/-- C4: if environment validation fails, the program aborts with the
validator's error: no stack is produced, hence no resource is ever
declared. -/
theorem invalid_env_no_resources (env : Env) (region account : String)
    (h : missingKeys env requiredEnvKeys ≠ []) :
    (∃ msg, assembleApp env region account = Except.error msg) ∧
    ∀ s : StackModel, assembleApp env region account ≠ Except.ok s := by
  rcases hml : missingKeys env requiredEnvKeys with _ | ⟨m, ms⟩
  · exact absurd hml h
  · have he : assembleApp env region account =
        Except.error ("Missing required environment variables: " ++ joinKeys (m :: ms)) := by
      unfold assembleApp validateEnv
      rw [hml]
      rfl
    refine ⟨⟨_, he⟩, ?_⟩
    intro s hs
    rw [he] at hs
    cases hs

/-- Witness for C4: the empty environment misses both required keys and the
program produces no stack. -/
theorem invalid_env_no_resources_w :
    (∃ msg, assembleApp [] "us-east-1" "123456789012" = Except.error msg) ∧
    ∀ s : StackModel, assembleApp [] "us-east-1" "123456789012" ≠ Except.ok s :=
  invalid_env_no_resources [] "us-east-1" "123456789012" (by decide)

/-- The single ingress rule declared on line 201 of my-stack.ts:
`allowFrom(nginxAlb, Port.tcp(80), "Allow ALB to access Nginx HTTP endpoint")`. -/
def nginxIngressRule : SGRule where
  targetId := "NginxService"
  source := Peer.securityGroupOf "NginxAlb"
  protocol := EcsProtocol.tcp
  port := 80
  description := "Allow ALB to access Nginx HTTP endpoint"

/-- C5: the only ingress rule declared for the service permits traffic solely
from the load balancer's security identity on TCP port 80, and no declared
rule grants unrestricted inbound access. -/
theorem service_ingress_least_privilege (env : Config) (region account : String) :
    (buildMyStack env region account).securityRules =
      [{ targetId := "NginxService", source := Peer.securityGroupOf "NginxAlb",
         protocol := EcsProtocol.tcp, port := 80,
         description := "Allow ALB to access Nginx HTTP endpoint" }] ∧
    ∀ r ∈ (buildMyStack env region account).securityRules,
      r.targetId = "NginxService" ∧ r.source = Peer.securityGroupOf "NginxAlb" ∧
        r.port = 80 ∧ r.source ≠ Peer.anyIpv4 := by
  refine ⟨rfl, ?_⟩
  intro r hr
  have h0 : r ∈ [nginxIngressRule] := hr
  rcases List.mem_singleton.mp h0 with rfl
  exact ⟨rfl, rfl, rfl, by decide⟩

/-- C6: the registry policy grants exactly the execution role (as principal)
the CreateRepository and BatchImportUpstreamImage actions on repositories
under the cache rule's namespace, and the task definition reuses that same
execution role. -/
theorem registry_policy_grants_and_role_reuse (env : Config) (region account : String) :
    (buildMyStack env region account).registryPolicies =
      [("DhCacheRegistryPolicy",
        { version := "2012-10-17",
          statement :=
            [{ sid := "AllowDockerhubCache", effect := "Allow",
               principalAws := ArnRef.roleArn "EcsTaskExecutionRole",
               action := ["ecr:CreateRepository", "ecr:BatchImportUpstreamImage"],
               resource := ecrRepositoryArn region account "dockerhub" }] })] ∧
    (buildMyStack env region account).taskDefinitions =
      [("EcsTaskDefinition", "EcsTaskExecutionRole")] :=
  ⟨rfl, rfl⟩

/-- C7: the declarations appear in source order as secret, VPC lookup, load
balancer, its HTTP listener, IAM role, cache rule, registry policy,
repository, cluster, task definition, its container, service, target group,
security rule; projected to the kinds the claim names (the listener and the
container are sub-declarations of the load balancer and the task definition),
the order is exactly the claimed fixed sequence. -/
theorem declaration_order_fixed (env : Config) (region account : String) :
    ((buildMyStack env region account).resources.map Resource.kind) =
      [DeclKind.secret, DeclKind.vpcLookup, DeclKind.loadBalancer, DeclKind.listener,
       DeclKind.iamRole, DeclKind.cacheRule, DeclKind.registryPolicy, DeclKind.repository,
       DeclKind.cluster, DeclKind.taskDefinition, DeclKind.containerDefinition,
       DeclKind.service, DeclKind.targetGroup, DeclKind.securityRule] ∧
    ((buildMyStack env region account).resources.map Resource.kind).filter
      (fun k => mainKinds.contains k) = mainKinds :=
  ⟨rfl, rfl⟩

/-- C8: with only DOCKERHUB_USERNAME=alice set, validation fails and the error
message mentions DOCKERHUB_ACCESS_TOKEN and does not mention
DOCKERHUB_USERNAME. -/
theorem username_only_error_mentions_token :
    ∃ msg, validateEnv requiredEnvKeys [("DOCKERHUB_USERNAME", "alice")] =
        Except.error msg ∧
      "DOCKERHUB_ACCESS_TOKEN".data <:+: msg.data ∧
      ¬("DOCKERHUB_USERNAME".data <:+: msg.data) := by
  refine ⟨"Missing required environment variables: DOCKERHUB_ACCESS_TOKEN", rfl, ?_, ?_⟩
  · decide
  · decide

/-- C9: the registry policy's resource ARN and the mirrored repository's name
are both derived from the cache rule's ecrRepositoryPrefix attribute, so the
policy's granted namespace, the repository's namespace and the cache rule's
namespace are the same prefix, "dockerhub". -/
theorem cache_namespace_single_source (env : Config) (region account : String) :
    ∃ ns,
      (buildMyStack env region account).cacheRules =
        [("DhCacheRule", ns, ArnRef.secretArn "DhCacheRuleSecret")] ∧
      ((buildMyStack env region account).registryPolicies.map
        (fun p => p.snd.statement.map PolicyStatement.resource)) =
        [[ecrRepositoryArn region account ns]] ∧
      (buildMyStack env region account).repositories =
        [("EcrNginxRepo", ns ++ "/library/nginx")] ∧
      ns = "dockerhub" :=
  ⟨"dockerhub", rfl, rfl, rfl, rfl⟩

/-- C10: the credential secret is named with the mandatory pull-through-cache
name prefix followed by "dockerhub", its value is the plain-text JSON
serialization of the username/accessToken object holding the validated
credentials, and the cache rule's credentialArn references that secret's
ARN. -/
theorem secret_name_value_and_cache_reference (env : Config) (region account : String) :
    (buildMyStack env region account).secrets =
      [("DhCacheRuleSecret", ECR_PULL_THROUGH_CACHE_PREFIX_STR ++ "dockerhub",
        dhSecretString env.DOCKERHUB_USERNAME env.DOCKERHUB_ACCESS_TOKEN)] ∧
    ECR_PULL_THROUGH_CACHE_PREFIX_STR ++ "dockerhub" = "ecr-pullthroughcache/dockerhub" ∧
    (buildMyStack env region account).cacheRules.map (fun c => c.snd.snd) =
      [ArnRef.secretArn "DhCacheRuleSecret"] :=
  ⟨rfl, by decide, rfl⟩

end DockerhubCache
